import Mathlib

/-!
Shallow embedding of the search & ranking engine of the SXSW schedule
worker (tokenizer, synonym canonicalizer, per-event search index, query
matcher/scorer, result orderer, shortlist ranker), together with proofs
of the specification claims about it.

Text is modelled as `List Char`.  JavaScript `String.prototype.toLowerCase`
is modelled by `Char.toLower` (the data and queries involved are ASCII),
the regex `\s` by the usual ASCII whitespace characters, and
`String.prototype.includes` / `localeCompare` by list-infix testing and
lexicographic comparison on the character lists.
-/

set_option maxRecDepth 4000

namespace SXSW

/-- Character strings, modelled as lists of characters. -/
abbrev Str := List Char

/-- Model of the JS regex class `\s` (whitespace). -/
def isWS (c : Char) : Bool :=
  c = ' ' || c = '\t' || c = '\n' || c = '\r' || c = '\x0b' || c = '\x0c'

/-- Collapse runs of consecutive spaces into a single space. -/
def squeezeSpaces : Str → Str
  | [] => []
  | [c] => [c]
  | a :: b :: rest =>
    if a = ' ' && b = ' ' then squeezeSpaces (b :: rest)
    else a :: squeezeSpaces (b :: rest)

/-- Drop spaces from both ends (JS `trim` after whitespace collapse,
where the only whitespace left is the space character). -/
def trimSpaces (s : Str) : Str :=
  ((s.dropWhile (· = ' ')).reverse.dropWhile (· = ' ')).reverse

/-- Function `normalize(str)` from the worker: lowercase, replace every whitespace
run by a single space, trim.  (`String(str || "")` — absent fields are
modelled as the empty list.) -/
def normalize (s : Str) : Str :=
  trimSpaces (squeezeSpaces (s.map (fun c => if isWS c then ' ' else c.toLower)))

/-- Characters matched by the regex class `[a-z0-9]`. -/
def isAlnum (c : Char) : Bool :=
  (decide ('a' ≤ c) && decide (c ≤ 'z')) || (decide ('0' ≤ c) && decide (c ≤ '9'))

/-- Function `tokenize(str)` from the worker: normalize, then take the maximal runs
matching `[a-z0-9]+` (`String.prototype.match` with the global flag). -/
def tokenize (s : Str) : List Str :=
  (((normalize s).splitOnP (fun c => !isAlnum c)).filter (fun t => t ≠ []))

/-- Constant `SYNONYM_GROUPS` from the worker. -/
def SYNONYM_GROUPS : List (Str × List Str) :=
  [ ("ai".data, ["ai".data, "llm".data, "genai".data, "gpt".data, "ml".data]),
    ("developer".data,
      ["developer".data, "developers".data, "dev".data, "engineer".data,
       "engineering".data, "software".data, "coder".data, "coding".data,
       "programmer".data, "programming".data]),
    ("tooling".data,
      ["tooling".data, "tool".data, "tools".data, "sdk".data, "framework".data,
       "frameworks".data, "platform".data, "platforms".data, "stack".data,
       "workflow".data, "workflows".data, "ide".data]),
    ("agent".data,
      ["agent".data, "agents".data, "agentic".data, "assistant".data,
       "assistants".data]),
    ("api".data, ["api".data, "apis".data]),
    ("infrastructure".data,
      ["infrastructure".data, "infra".data, "devops".data, "mlops".data,
       "deployment".data, "deploy".data]) ]

/-- Constant `TOKEN_CANONICAL`: the synonym groups flattened into token→canonical
pairs (`Object.fromEntries`; no key appears with two distinct values, so
first-match lookup agrees with the JS object). -/
def TOKEN_CANONICAL : List (Str × Str) :=
  SYNONYM_GROUPS.flatMap (fun g =>
    (g.1, g.1) :: g.2.map (fun variant => (variant, g.1)))

/-- First-match association lookup (models JS object property access). -/
def lookupTok : List (Str × Str) → Str → Option Str
  | [], _ => none
  | (k, v) :: rest, t => if k = t then some v else lookupTok rest t

/-- Function `canonicalizeToken(token)`: `TOKEN_CANONICAL[token] || token`. -/
def canonicalizeToken (token : Str) : Str :=
  (lookupTok TOKEN_CANONICAL token).getD token

/-- Join a list of strings with single spaces (JS `Array.prototype.join(" ")`). -/
def joinSp (parts : List Str) : Str :=
  List.intercalate (" ".data) parts

/-- Function `canonicalizeText(str)`: tokenize, canonicalize each token, rejoin. -/
def canonicalizeText (s : Str) : Str :=
  joinSp ((tokenize s).map canonicalizeToken)

/-- The five indexed event fields. -/
inductive Field where
  | name | category | venue | event_type | contributors
deriving DecidableEq, Repr

/-- Field iteration order (JS object insertion order in `buildSearchIndex`). -/
def fieldsOrder : List Field :=
  [.name, .category, .venue, .event_type, .contributors]

/-- Display name of a field (the JS object key). -/
def fieldName : Field → Str
  | .name => "name".data
  | .category => "category".data
  | .venue => "venue".data
  | .event_type => "event_type".data
  | .contributors => "contributors".data

/-- An event record, as consumed by the search engine.  Absent strings
(`event.venue?.name`, missing `start_time`, …) are the empty list, which
is exactly how the worker coerces them (`String(x || "")`). -/
structure Event where
  event_id : Str := []
  name : Str := []
  category : Str := []
  event_type : Str := []
  venue : Str := []
  contributors : List Str := []
  date : Str := []
  start_time : Str := []
  end_time : Str := []
  official_url : Str := []
deriving DecidableEq, Repr

/-- The normalized text of one event field
(`contributors` joins all contributor names with spaces). -/
def fieldText (e : Event) : Field → Str
  | .name => normalize e.name
  | .category => normalize e.category
  | .venue => normalize e.venue
  | .event_type => normalize e.event_type
  | .contributors => normalize (joinSp e.contributors)

/-- Structure `SearchIndex` from `buildSearchIndex`. -/
structure SearchIndex where
  fields : Field → Str
  tokensByField : Field → List Str
  rawBlob : Str
  canonicalBlob : Str

/-- Function `buildSearchIndex(event)`.  A JS `Set` is modelled by the underlying
token list; `Set.has` is list membership. -/
def buildSearchIndex (e : Event) : SearchIndex :=
  { fields := fieldText e
    tokensByField := fun f => (tokenize (fieldText e f)).map canonicalizeToken
    rawBlob := trimSpaces (joinSp (fieldsOrder.map (fieldText e)))
    canonicalBlob :=
      trimSpaces (joinSp (fieldsOrder.map (fun f => canonicalizeText (fieldText e f)))) }

/-- Field weights of the scorer.  (The source writes `weights[field] || 1`;
the default `1` is unreachable because all five fields are in the table.) -/
def weight : Field → Nat
  | .name => 5
  | .contributors => 4
  | .category => 2
  | .venue => 2
  | .event_type => 2

/-- Intermediate scorer state: running score, matched terms in query order,
matched field names in insertion order (a JS `Set`). -/
structure ScoreState where
  score : Nat
  matched_terms : List Str
  matched_fields : List Str
deriving DecidableEq, Repr

/-- Insertion-order set add (JS `Set.prototype.add`). -/
def setAdd (s : List Str) (x : Str) : List Str :=
  if x ∈ s then s else s ++ [x]

/-- One iteration of the scorer token loop: scan every field, add the
field weight for each hit, record hit fields, and push the token to
`matchedTerms` when at least one field hit. -/
def stmStep (index : SearchIndex) (st : ScoreState) (token : Str) : ScoreState :=
  let hitFields := fieldsOrder.filter (fun f => token ∈ index.tokensByField f)
  { score := st.score + (hitFields.map weight).sum
    matched_terms := if hitFields = [] then st.matched_terms else st.matched_terms ++ [token]
    matched_fields := hitFields.foldl (fun mf f => setAdd mf (fieldName f)) st.matched_fields }

/-- Result of `scoreTokenMatches`. -/
structure ScoreResult where
  score : Nat
  matched_terms : List Str
  matched_fields : List Str
deriving DecidableEq, Repr

/-- Lexicographic sort of strings (JS `Array.prototype.sort()` over the
matched field names). -/
def sortStr (l : List Str) : List Str :=
  l.insertionSort (· ≤ ·)

/-- Function `scoreTokenMatches(index, queryTokens)`. -/
def scoreTokenMatches (index : SearchIndex) (queryTokens : List Str) : ScoreResult :=
  let st := queryTokens.foldl (stmStep index) ⟨0, [], []⟩
  { score := st.score + st.matched_terms.length
    matched_terms := st.matched_terms
    matched_fields := sortStr st.matched_fields }

/-- Query modes (`QUERY_MODES`); the router rejects anything else before
the matcher runs. -/
inductive QMode where
  | any | all | phrase
deriving DecidableEq, Repr

/-- Structure `MatchResult` returned by `analyzeQuery`. -/
structure MatchResult where
  matches' : Bool
  score : Nat
  matched_terms : List Str
  matched_fields : List Str
deriving DecidableEq, Repr

/-- De-duplicate preserving first occurrence (`[...new Set(list)]`). -/
def dedupFirst (l : List Str) : List Str :=
  l.foldl (fun acc x => if x ∈ acc then acc else acc ++ [x]) []

/-- Does `hay` start with `needle`? -/
def startsWith : Str → Str → Bool
  | _, [] => true
  | [], _ :: _ => false
  | h :: hs, n :: ns => h = n && startsWith hs ns

/-- Test `hay.includes(needle)` (JS substring test). -/
def strIncludes (hay needle : Str) : Bool :=
  match hay with
  | [] => needle = []
  | c :: rest => startsWith (c :: rest) needle || strIncludes rest needle

/-- Function `analyzeQuery(event, query, qMode)`.  The source tests
`qMode === "all"` and `qMode === "any"` sequentially after the phrase
branch; matching on the three mode constructors is the same case split. -/
def analyzeQuery (event : Event) (query : Str) (qMode : QMode) : MatchResult :=
  let normalizedQuery := normalize query
  if normalizedQuery = [] then ⟨true, 0, [], []⟩
  else
    let index := buildSearchIndex event
    let queryTokens := dedupFirst ((tokenize normalizedQuery).map canonicalizeToken)
    match qMode with
    | .phrase =>
      let rawMatch := strIncludes index.rawBlob normalizedQuery
      let canonicalQuery := canonicalizeText normalizedQuery
      let canonicalMatch :=
        if canonicalQuery = [] then false else strIncludes index.canonicalBlob canonicalQuery
      if rawMatch || canonicalMatch then
        let scored := scoreTokenMatches index queryTokens
        ⟨true, scored.score + 4, scored.matched_terms, scored.matched_fields⟩
      else ⟨false, 0, [], []⟩
    | .all =>
      let scored := scoreTokenMatches index queryTokens
      if scored.matched_terms.length ≠ queryTokens.length then ⟨false, 0, [], []⟩
      else ⟨true, scored.score + 3, scored.matched_terms, scored.matched_fields⟩
    | .any =>
      let scored := scoreTokenMatches index queryTokens
      if scored.matched_terms.length = 0 then ⟨false, 0, [], []⟩
      else ⟨true, scored.score, scored.matched_terms, scored.matched_fields⟩

/-- A matched event row (`{ event, meta }`) as sorted by `searchSort`. -/
structure Row where
  event : Event
  meta : MatchResult
deriving DecidableEq, Repr

/-- Three-way comparison in a linear order (models numeric comparator
results and `localeCompare`, the latter restricted to code-point order). -/
def cmpOf {α : Type} [LinearOrder α] (a b : α) : Ordering :=
  if a < b then .lt else if b < a then .gt else .eq

theorem cmpOf_eq_gt {α : Type} [LinearOrder α] {a b : α} :
    cmpOf a b = .gt ↔ b < a := by
  unfold cmpOf
  split_ifs with h1 h2
  · simp [lt_asymm h1]
  · simp [h2]
  · simp [h2]

theorem cmpOf_eq_lt {α : Type} [LinearOrder α] {a b : α} :
    cmpOf a b = .lt ↔ a < b := by
  unfold cmpOf
  split_ifs with h1 h2
  · simp [h1]
  · simp [lt_asymm h2]
  · simp [h1]

/-- Comparator `searchSort(a, b)` from the worker: score descending, then
`start_time` ascending, then `event_id` ascending.  (`a.meta?.score || 0`
is just `a.meta.score` here since every sorted row carries its meta and
scores are numbers; `localeCompare` is modelled as code-point order.) -/
def searchSortCmp (a b : Row) : Ordering :=
  if b.meta.score ≠ a.meta.score then cmpOf b.meta.score a.meta.score
  else if a.event.start_time ≠ b.event.start_time then
    cmpOf a.event.start_time b.event.start_time
  else cmpOf a.event.event_id b.event.event_id

/-- Relation saying `a` sorts no later than `b`: the comparator does not say `a` after `b`. -/
def rowLE (a b : Row) : Prop := searchSortCmp a b ≠ .gt

instance : DecidableRel rowLE := fun a b => by unfold rowLE; infer_instance

/-- Explicit description of `rowLE`. -/
theorem rowLE_char (a b : Row) :
    rowLE a b ↔
      b.meta.score < a.meta.score ∨
        (b.meta.score = a.meta.score ∧
          (a.event.start_time < b.event.start_time ∨
            (a.event.start_time = b.event.start_time ∧
              a.event.event_id ≤ b.event.event_id))) := by
  unfold rowLE searchSortCmp
  rcases eq_or_ne b.meta.score a.meta.score with hs | hs
  · rcases eq_or_ne a.event.start_time b.event.start_time with ht | ht
    · simp [hs, ht, cmpOf_eq_gt, not_lt]
    · have hiff : ¬ (b.event.start_time < a.event.start_time) ↔
          a.event.start_time < b.event.start_time :=
        ⟨fun h => lt_of_le_of_ne (not_lt.mp h) ht, fun h => lt_asymm h⟩
      simp [hs, ht, cmpOf_eq_gt, hiff]
  · have hiff : ¬ (a.meta.score < b.meta.score) ↔ b.meta.score < a.meta.score :=
      ⟨fun h => lt_of_le_of_ne (not_lt.mp h) hs, fun h => lt_asymm h⟩
    simp [hs, cmpOf_eq_gt, hiff]

/-- The sort key realizing `searchSort` as a lexicographic linear order. -/
def sortKey (r : Row) : Lex (Int × Lex (Str × Str)) :=
  toLex (-(r.meta.score : Int), toLex (r.event.start_time, r.event.event_id))

theorem rowLE_iff_key (a b : Row) : rowLE a b ↔ sortKey a ≤ sortKey b := by
  rw [rowLE_char]
  unfold sortKey
  rw [Prod.Lex.le_iff]
  simp [Prod.Lex.le_iff, neg_lt_neg_iff, Nat.cast_lt, neg_inj, Nat.cast_inj, eq_comm]

instance : IsTotal Row rowLE :=
  ⟨fun a b => by
    rw [rowLE_iff_key, rowLE_iff_key]
    exact le_total _ _⟩

instance : IsTrans Row rowLE :=
  ⟨fun a b c hab hbc => by
    rw [rowLE_iff_key] at *
    exact le_trans hab hbc⟩

/-- Mutual `rowLE` forces equal sort keys, hence equal ids. -/
theorem rowLE_antisymm_id {a b : Row} (hab : rowLE a b) (hba : rowLE b a) :
    a.event.event_id = b.event.event_id := by
  rw [rowLE_iff_key] at hab hba
  have hk : sortKey a = sortKey b := le_antisymm hab hba
  unfold sortKey at hk
  have h2 := congrArg (fun x => (ofLex x).2) hk
  have h3 := congrArg (fun x => (ofLex x).2) h2
  simpa using h3

/-- Operation `hits.sort(searchSort)`: modelled as a sort producing a
`searchSort`-sorted permutation of the input. -/
def sortRows (l : List Row) : List Row :=
  l.insertionSort rowLE

/-- A sorted permutation is unique as soon as the order is antisymmetric
on the elements actually present. -/
theorem sorted_perm_unique {α : Type} (r : α → α → Prop) :
    ∀ (l₁ l₂ : List α), l₁.Perm l₂ → l₁.Sorted r → l₂.Sorted r →
      (∀ a ∈ l₁, ∀ b ∈ l₁, r a b → r b a → a = b) → l₁ = l₂ := by
  intro l₁
  induction l₁ with
  | nil =>
    intro l₂ hp _ _ _
    exact hp.nil_eq
  | cons a t ih =>
    intro l₂ hp hs₁ hs₂ hanti
    cases l₂ with
    | nil => exact absurd hp.symm (by simp)
    | cons b t₂ =>
      have hbmem : b ∈ a :: t := hp.symm.subset (List.mem_cons_self b t₂)
      have hamem : a ∈ b :: t₂ := hp.subset (List.mem_cons_self a t)
      have hab : a = b := by
        rcases List.mem_cons.mp hbmem with h | h
        · exact h.symm
        rcases List.mem_cons.mp hamem with h2 | h2
        · exact h2
        have hrab : r a b := (List.sorted_cons.mp hs₁).1 b h
        have hrba : r b a := (List.sorted_cons.mp hs₂).1 a h2
        exact hanti a (List.mem_cons_self a t) b hbmem hrab hrba
      subst hab
      have htp : t.Perm t₂ := hp.cons_inv
      have := ih t₂ htp (List.sorted_cons.mp hs₁).2 (List.sorted_cons.mp hs₂).2
        (fun x hx y hy => hanti x (List.mem_cons_of_mem a hx) y (List.mem_cons_of_mem a hy))
      rw [this]

/-- A shortlist row after ranking (`{ event, meta, rank_score }`). -/
structure RankedRow where
  row : Row
  rank_score : Nat
deriving DecidableEq, Repr

/-- The shortlist comparator: `rank_score` descending, ties broken by
`searchSort`. -/
def rankCmp (a b : RankedRow) : Ordering :=
  if b.rank_score ≠ a.rank_score then cmpOf b.rank_score a.rank_score
  else searchSortCmp a.row b.row

/-- Relation saying `a` sorts no later than `b` for the shortlist comparator. -/
def rankLE (a b : RankedRow) : Prop := rankCmp a b ≠ .gt

instance : DecidableRel rankLE := fun a b => by unfold rankLE; infer_instance

theorem rankLE_char (a b : RankedRow) :
    rankLE a b ↔
      b.rank_score < a.rank_score ∨
        (b.rank_score = a.rank_score ∧ rowLE a.row b.row) := by
  unfold rankLE rankCmp
  rcases eq_or_ne b.rank_score a.rank_score with hs | hs
  · simp [hs, rowLE]
  · have hiff : ¬ (a.rank_score < b.rank_score) ↔ b.rank_score < a.rank_score :=
      ⟨fun h => lt_of_le_of_ne (not_lt.mp h) hs, fun h => lt_asymm h⟩
    simp [hs, cmpOf_eq_gt, hiff]

/-- Sort key realizing the shortlist comparator as a linear order. -/
def rankKey (r : RankedRow) : Lex (Int × Lex (Int × Lex (Str × Str))) :=
  toLex (-(r.rank_score : Int), sortKey r.row)

theorem rankLE_iff_key (a b : RankedRow) : rankLE a b ↔ rankKey a ≤ rankKey b := by
  rw [rankLE_char]
  unfold rankKey
  rw [Prod.Lex.le_iff]
  simp [rowLE_iff_key, eq_comm]

instance : IsTotal RankedRow rankLE :=
  ⟨fun a b => by
    rw [rankLE_iff_key, rankLE_iff_key]
    exact le_total _ _⟩

instance : IsTrans RankedRow rankLE :=
  ⟨fun a b c hab hbc => by
    rw [rankLE_iff_key] at *
    exact le_trans hab hbc⟩

/-- Operation `hits.sort` with the rank comparator of the shortlist. -/
def sortRanked (l : List RankedRow) : List RankedRow :=
  l.insertionSort rankLE

/-- Function `shortlistBoost(event, rankingTerms)`. -/
def shortlistBoost (e : Event) (rankingTerms : List Str) : Nat :=
  let nm := normalize e.name
  let blob := normalize (joinSp ([e.name, e.category, e.event_type, e.venue] ++ e.contributors))
  let boost := rankingTerms.foldl (fun acc term =>
    let nt := normalize term
    if nt = [] then acc
    else if strIncludes nm nt then acc + 3
    else if strIncludes blob nt then acc + 1
    else acc) 0
  if e.event_type = ("panel".data) then boost + 2 else boost

/-- A shortlist topic preset. -/
structure Preset where
  slug : Str
  primary_query : Str
  primary_mode : QMode
  fallback_query : Str := []
  fallback_mode : Option QMode := none
  ranking_terms : List Str := []
deriving DecidableEq, Repr

/-- The single entry of `TOPIC_PRESETS`. -/
def aiDeveloperTooling : Preset :=
  { slug := "ai-developer-tooling".data
    primary_query := "AI developer tooling".data
    primary_mode := .any
    fallback_query := "AI".data
    fallback_mode := some .any
    ranking_terms :=
      ["developer".data, "tooling".data, "agent".data, "api".data, "platform".data,
       "engineering".data, "software".data, "code".data, "coding".data, "llm".data,
       "infrastructure".data, "devops".data, "mlops".data, "sdk".data, "framework".data] }

/-- Ranking terms of the generic (unknown-topic) preset. -/
def genericRankingTerms : List Str :=
  ["developer".data, "tooling".data, "agent".data, "api".data, "platform".data,
   "code".data, "llm".data, "infrastructure".data]

/-- Replacement of every dash with a space (the global dash regex). -/
def dashToSpace (s : Str) : Str :=
  s.map (fun c => if c = '-' then ' ' else c)

/-- Preset selection in `handleShortlist`:
`TOPIC_PRESETS[topicRaw] || { generic preset }` for the normalized topic. -/
def shortlistPreset (topicRaw : Str) : Preset :=
  if topicRaw = ("ai-developer-tooling".data) then aiDeveloperTooling
  else
    { slug := if topicRaw = [] then "custom".data else topicRaw
      primary_query := dashToSpace (if topicRaw = [] then "ai".data else topicRaw)
      primary_mode := .any
      fallback_query := "AI".data
      fallback_mode := some .any
      ranking_terms := genericRankingTerms }

/-- The rows of a bucket matching a query
(`dayEvents.map(event => ({event, meta: analyzeQuery(...)})).filter(row => row.meta.matches)`). -/
def matchRows (dayEvents : List Event) (q : Str) (m : QMode) : List Row :=
  (dayEvents.map (fun e => Row.mk e (analyzeQuery e q m))).filter (fun r => r.meta.matches')

/-- The primary/fallback selection of `handleShortlist`: which query and
mode are used, and the matching rows. -/
def shortlistSelection (preset : Preset) (dayEvents : List Event) : Str × QMode × List Row :=
  let primary := matchRows dayEvents preset.primary_query preset.primary_mode
  if primary.length = 0 ∧ preset.fallback_query ≠ [] then
    (preset.fallback_query, preset.fallback_mode.getD .any,
      matchRows dayEvents preset.fallback_query (preset.fallback_mode.getD .any))
  else (preset.primary_query, preset.primary_mode, primary)

/-- Attach `rank_score = meta.score + shortlistBoost(event, ranking_terms)`. -/
def rankRows (preset : Preset) (rows : List Row) : List RankedRow :=
  rows.map (fun r => RankedRow.mk r (r.meta.score + shortlistBoost r.event preset.ranking_terms))

/-- A projected shortlist result item. -/
structure ShortlistItem where
  event_id : Str
  name : Str
  date : Str
  start_time : Str
  end_time : Str
  event_type : Str
  category : Str
  venue : Str
  official_url : Str
  score : Nat
  matched_terms : List Str
  matched_fields : List Str
deriving DecidableEq, Repr

/-- Projection of a ranked row into a shortlist item. -/
def toItem (r : RankedRow) : ShortlistItem :=
  { event_id := r.row.event.event_id
    name := r.row.event.name
    date := r.row.event.date
    start_time := r.row.event.start_time
    end_time := r.row.event.end_time
    event_type := r.row.event.event_type
    category := r.row.event.category
    venue := r.row.event.venue
    official_url := r.row.event.official_url
    score := r.rank_score
    matched_terms := r.row.meta.matched_terms
    matched_fields := r.row.meta.matched_fields }

/-- One per-date record of the shortlist response. -/
structure ShortlistDay where
  date : Str
  query_used : Str
  q_mode_used : QMode
  total_candidates : Nat
  count : Nat
  results : List ShortlistItem
deriving DecidableEq, Repr

/-- The per-date bucket processing of `handleShortlist`. -/
def shortlistDay (preset : Preset) (perDay : Nat) (dayEvents : List Event) (date : Str) :
    ShortlistDay :=
  let sel := shortlistSelection preset dayEvents
  let sorted := sortRanked (rankRows preset sel.2.2)
  let top := (sorted.take perDay).map toItem
  { date := date
    query_used := sel.1
    q_mode_used := sel.2.1
    total_candidates := sorted.length
    count := top.length
    results := top }

/-- The distinct festival dates:
`[...new Set(events.map(e => e.date).filter(d => d && d !== "unknown"))].sort()`. -/
def datesOf (events : List Event) : List Str :=
  sortStr (dedupFirst ((events.map (fun e => e.date)).filter
    (fun d => decide (d ≠ [] ∧ d ≠ ("unknown".data)))))

/-- The per-date loop of `handleShortlist`: one `ShortlistDay` per
distinct date, over that date's bucket. -/
def shortlistDays (preset : Preset) (perDay : Nat) (events : List Event) : List ShortlistDay :=
  (datesOf events).map (fun d =>
    shortlistDay preset perDay (events.filter (fun e => decide (e.date = d))) d)

/-- The event of the spec's worked scenario. -/
def E1 : Event :=
  { event_id := "E1".data
    name := "AI and the Future".data
    category := "Panel".data
    start_time := "2026-03-14T10:00:00-05:00".data }

-- -------------------------------------------------------------------------
-- Helper lemmas
-- -------------------------------------------------------------------------

theorem stm_fold_score (idx : SearchIndex) :
    ∀ (qts : List Str) (st : ScoreState),
      (qts.foldl (stmStep idx) st).score =
        st.score + (qts.map (fun t =>
          ((fieldsOrder.filter (fun f => t ∈ idx.tokensByField f)).map weight).sum)).sum := by
  intro qts
  induction qts with
  | nil => intro st; simp
  | cons t rest ih =>
    intro st
    rw [List.foldl_cons, ih]
    simp [stmStep]
    omega

theorem foldl_dedup_ne_nil :
    ∀ (l acc : List Str), acc ≠ [] →
      l.foldl (fun acc x => if x ∈ acc then acc else acc ++ [x]) acc ≠ [] := by
  intro l
  induction l with
  | nil => intro acc h; simpa using h
  | cons x xs ih =>
    intro acc h
    rw [List.foldl_cons]
    apply ih
    by_cases hx : x ∈ acc
    · simpa [hx] using h
    · simp [hx]

theorem dedupFirst_ne_nil {l : List Str} (h : l ≠ []) : dedupFirst l ≠ [] := by
  cases l with
  | nil => exact absurd rfl h
  | cons x xs =>
    unfold dedupFirst
    rw [List.foldl_cons]
    apply foldl_dedup_ne_nil
    simp

theorem lookupTok_mem : ∀ (l : List (Str × Str)) (t v : Str),
    lookupTok l t = some v → (t, v) ∈ l := by
  intro l
  induction l with
  | nil => intro t v h; simp [lookupTok] at h
  | cons p rest ih =>
    intro t v h
    rcases p with ⟨k, w⟩
    by_cases hk : k = t
    · simp [lookupTok, hk] at h
      subst hk
      simp [h]
    · simp [lookupTok, hk] at h
      exact List.mem_cons_of_mem _ (ih t v h)

theorem lookupTok_none : ∀ (l : List (Str × Str)) (t : Str),
    (∀ p ∈ l, p.1 ≠ t) → lookupTok l t = none := by
  intro l
  induction l with
  | nil => intro t _; rfl
  | cons p rest ih =>
    intro t hall
    rcases p with ⟨k, w⟩
    have hk : k ≠ t := hall (k, w) (List.mem_cons_self _ _)
    simp [lookupTok, hk]
    exact ih t (fun q hq => hall q (List.mem_cons_of_mem _ hq))

/-- Every canonical term of the flattened synonym table maps to itself. -/
theorem canonical_self : ∀ p ∈ TOKEN_CANONICAL, lookupTok TOKEN_CANONICAL p.2 = some p.2 := by
  decide

-- -------------------------------------------------------------------------
-- Concrete data used by scenario conjuncts, counterexamples and witnesses
-- -------------------------------------------------------------------------

/-- Five same-date events with pairwise distinct shortlist rank scores. -/
def S1 : Event := { event_id := "S1".data, name := "ai".data, date := "2026-03-14".data }

def S2 : Event :=
  { event_id := "S2".data, name := "ai developer".data, date := "2026-03-14".data }

def S3 : Event :=
  { event_id := "S3".data, name := "ai developer tooling".data, date := "2026-03-14".data }

def S4 : Event :=
  { event_id := "S4".data, name := "ai developer tooling agent".data, date := "2026-03-14".data }

def S5 : Event :=
  { event_id := "S5".data, name := "ai developer tooling agent api".data,
    date := "2026-03-14".data }

/-- Three same-date events matching the fallback query `AI` but not the
primary query of the `zzz` topic. -/
def F1 : Event := { event_id := "F1".data, name := "ai one".data, date := "2026-03-15".data }

def F2 : Event := { event_id := "F2".data, name := "ai two".data, date := "2026-03-15".data }

def F3 : Event := { event_id := "F3".data, name := "ai three".data, date := "2026-03-15".data }

/-- Concrete match rows with pairwise distinct ids. -/
def W1 : Row :=
  ⟨{ event_id := "a".data, start_time := "2026-03-13T09:00".data }, ⟨true, 7, [], []⟩⟩

def W2 : Row :=
  ⟨{ event_id := "b".data, start_time := "2026-03-12T10:00".data }, ⟨true, 7, [], []⟩⟩

def W3 : Row :=
  ⟨{ event_id := "c".data, start_time := [] }, ⟨true, 9, [], []⟩⟩

-- -------------------------------------------------------------------------
-- Claim theorems
-- -------------------------------------------------------------------------

/-- C1: for every search index and query-token list, the scorer's score is
the sum, over each query token and each field whose token set contains it,
of the field's weight, plus the number of matched terms; and on the event
`E1` (name `AI and the Future`, category `Panel`) the query `ai` in `any`
mode matches with score 6 and matched field `name`. -/
theorem C1_score_weighted_sum :
    (∀ (idx : SearchIndex) (qts : List Str),
      (scoreTokenMatches idx qts).score =
        (qts.map (fun t =>
          ((fieldsOrder.filter (fun f => t ∈ idx.tokensByField f)).map weight).sum)).sum
          + (scoreTokenMatches idx qts).matched_terms.length) ∧
    analyzeQuery E1 ("ai".data) .any =
      { matches' := true, score := 6, matched_terms := [("ai".data)],
        matched_fields := [("name".data)] } := by
  constructor
  · intro idx qts
    simp only [scoreTokenMatches]
    rw [stm_fold_score]
    simp
  · decide

/-- C8: synonym canonicalization is idempotent, and a token that is not a
key of the flattened synonym table is returned unchanged. -/
theorem C8_canonicalize_idempotent :
    (∀ t : Str, canonicalizeToken (canonicalizeToken t) = canonicalizeToken t) ∧
    (∀ t : Str, (∀ p ∈ TOKEN_CANONICAL, p.1 ≠ t) → canonicalizeToken t = t) := by
  constructor
  · intro t
    unfold canonicalizeToken
    cases h : lookupTok TOKEN_CANONICAL t with
    | none => simp [h]
    | some v =>
      have hv := canonical_self (t, v) (lookupTok_mem TOKEN_CANONICAL t v h)
      simp [h] at hv ⊢
      simp [hv]
  · intro t hnot
    unfold canonicalizeToken
    rw [lookupTok_none TOKEN_CANONICAL t hnot]
    rfl

/-- Witness for the hypothesis of C8: `zzz` is not in the synonym table
and is left unchanged. -/
theorem C8_canonicalize_idempotent_witness :
    (∀ p ∈ TOKEN_CANONICAL, p.1 ≠ ("zzz".data)) ∧
      canonicalizeToken ("zzz".data) = ("zzz".data) :=
  ⟨by decide, C8_canonicalize_idempotent.2 ("zzz".data) (by decide)⟩

/-- C9: a blank query (normalizing to the empty string) trivially matches
every event in every mode with score 0 and no matched terms or fields. -/
theorem C9_blank_query_matches (e : Event) (q : Str) (m : QMode)
    (hq : normalize q = []) :
    analyzeQuery e q m = ⟨true, 0, [], []⟩ := by
  unfold analyzeQuery
  simp [hq]

/-- Witness for C9 at a whitespace-only query against `E1`. -/
theorem C9_blank_query_matches_witness :
    normalize ("   ".data) = [] ∧
      analyzeQuery E1 ("   ".data) .all = ⟨true, 0, [], []⟩ :=
  ⟨by decide, C9_blank_query_matches E1 ("   ".data) .all (by decide)⟩

/-- C10: whenever evaluation reports no match, the whole result is
exactly `matches=false, score=0` with empty matched terms and fields. -/
theorem C10_fail_is_zero (e : Event) (q : Str) (m : QMode)
    (h : (analyzeQuery e q m).matches' = false) :
    analyzeQuery e q m = ⟨false, 0, [], []⟩ := by
  by_cases hq : normalize q = []
  · simp [analyzeQuery, hq] at h
  · cases m <;>
      simp only [analyzeQuery, if_neg hq] at h ⊢ <;>
      split at h <;>
      (try split at h) <;>
      simp_all

/-- Witness for C10: a query matching nothing on `E1`. -/
theorem C10_fail_is_zero_witness :
    (analyzeQuery E1 ("zzz".data) .any).matches' = false ∧
      analyzeQuery E1 ("zzz".data) .any = ⟨false, 0, [], []⟩ :=
  ⟨by decide, C10_fail_is_zero E1 ("zzz".data) .any (by decide)⟩

/-- C2 counterexample: on `E1` the token-less, non-blank query `!`
matches in `all` mode but not in `any` mode, so all-mode matches are not
a subset of any-mode matches. -/
theorem C2_counterexample :
    (analyzeQuery E1 ("!".data) .all).matches' = true ∧
      (analyzeQuery E1 ("!".data) .any).matches' = false := by
  decide

/-- C2 (amended): for every event and every query that yields at least
one alphanumeric token, a match in `all` mode implies a match in `any`
mode. -/
theorem C2_all_implies_any (e : Event) (q : Str)
    (htok : tokenize (normalize q) ≠ []) :
    (analyzeQuery e q .all).matches' = true →
    (analyzeQuery e q .any).matches' = true := by
  intro hall
  by_cases hq : normalize q = []
  · simp only [analyzeQuery, if_pos hq]
  · have hqt : dedupFirst ((tokenize (normalize q)).map canonicalizeToken) ≠ [] :=
      dedupFirst_ne_nil (by simpa using htok)
    simp only [analyzeQuery, if_neg hq] at hall ⊢
    split at hall
    · simp at hall
    · rename_i hlen
      rw [not_not] at hlen
      have hne : (scoreTokenMatches (buildSearchIndex e)
          (dedupFirst ((tokenize (normalize q)).map canonicalizeToken))).matched_terms.length ≠ 0 := by
        rw [hlen]
        intro h0
        exact hqt (List.length_eq_zero.mp h0)
      rw [if_neg hne]

/-- Witness for C2 (amended): concrete all-mode match that also matches
in any mode. -/
theorem C2_all_implies_any_witness :
    tokenize (normalize ("ai".data)) ≠ [] ∧
      (analyzeQuery E1 ("ai".data) .all).matches' = true ∧
      (analyzeQuery E1 ("ai".data) .any).matches' = true :=
  ⟨by decide, by decide, C2_all_implies_any E1 ("ai".data) (by decide) (by decide)⟩

/-- C3 counterexample: for the non-blank query `!` against `E1`, the
canonicalized query is empty and hence a substring of the canonical blob,
yet phrase mode does not match — the claimed iff fails. -/
theorem C3_counterexample :
    normalize ("!".data) ≠ [] ∧
      strIncludes (buildSearchIndex E1).canonicalBlob
        (canonicalizeText (normalize ("!".data))) = true ∧
      (analyzeQuery E1 ("!".data) .phrase).matches' = false := by
  decide

/-- C3 (amended): for every event and non-blank query, phrase mode
matches iff the normalized query is a substring of the raw blob or the
canonicalized query is nonempty and a substring of the canonical blob;
on a match, the score is the token-scan score plus 4 and the matched
terms/fields are the scorer's. -/
theorem C3_phrase_characterization (e : Event) (q : Str)
    (hq : normalize q ≠ []) :
    ((analyzeQuery e q .phrase).matches' = true ↔
      (strIncludes (buildSearchIndex e).rawBlob (normalize q) = true ∨
        (canonicalizeText (normalize q) ≠ [] ∧
          strIncludes (buildSearchIndex e).canonicalBlob
            (canonicalizeText (normalize q)) = true))) ∧
    ((analyzeQuery e q .phrase).matches' = true →
      (analyzeQuery e q .phrase).score =
        (scoreTokenMatches (buildSearchIndex e)
          (dedupFirst ((tokenize (normalize q)).map canonicalizeToken))).score + 4 ∧
      (analyzeQuery e q .phrase).matched_terms =
        (scoreTokenMatches (buildSearchIndex e)
          (dedupFirst ((tokenize (normalize q)).map canonicalizeToken))).matched_terms ∧
      (analyzeQuery e q .phrase).matched_fields =
        (scoreTokenMatches (buildSearchIndex e)
          (dedupFirst ((tokenize (normalize q)).map canonicalizeToken))).matched_fields) := by
  simp only [analyzeQuery, if_neg hq]
  by_cases hc : canonicalizeText (normalize q) = [] <;>
    by_cases hr : strIncludes (buildSearchIndex e).rawBlob (normalize q) = true <;>
    by_cases hcb : strIncludes (buildSearchIndex e).canonicalBlob
      (canonicalizeText (normalize q)) = true <;>
    simp_all

/-- Witness for C3 (amended): query `ai and` phrase-matches `E1` as a raw
substring. -/
theorem C3_phrase_characterization_witness :
    normalize ("ai and".data) ≠ [] ∧
      ((analyzeQuery E1 ("ai and".data) .phrase).matches' = true ↔
        (strIncludes (buildSearchIndex E1).rawBlob (normalize ("ai and".data)) = true ∨
          (canonicalizeText (normalize ("ai and".data)) ≠ [] ∧
            strIncludes (buildSearchIndex E1).canonicalBlob
              (canonicalizeText (normalize ("ai and".data))) = true))) :=
  ⟨by decide, (C3_phrase_characterization E1 ("ai and".data) (by decide)).1⟩

/-- C7 counterexample: the empty normalized topic (a whitespace-only
`topic` parameter) is not a known preset slug, yet its generic primary
query is `ai`, not the topic string with dashes replaced. -/
theorem C7_counterexample :
    (([] : Str) ≠ ("ai-developer-tooling".data)) ∧
      (shortlistPreset []).primary_query ≠ dashToSpace ([] : Str) := by
  decide

/-- C7 (amended): for every nonempty normalized topic that is not a known
preset slug, the generic preset uses the topic with dashes replaced by
spaces as primary query in `any` mode, fallback query `AI` in `any`
mode, and the generic ranking-term list. -/
theorem C7_generic_preset (topicRaw : Str)
    (h1 : topicRaw ≠ ("ai-developer-tooling".data)) (h2 : topicRaw ≠ []) :
    shortlistPreset topicRaw =
      { slug := topicRaw
        primary_query := dashToSpace topicRaw
        primary_mode := .any
        fallback_query := "AI".data
        fallback_mode := some .any
        ranking_terms := genericRankingTerms } := by
  simp [shortlistPreset, h1, h2]

/-- Witness for C7 (amended) at the unknown topic `robot-dogs`. -/
theorem C7_generic_preset_witness :
    (("robot-dogs".data : Str) ≠ ("ai-developer-tooling".data)) ∧
      (("robot-dogs".data : Str) ≠ []) ∧
      shortlistPreset ("robot-dogs".data) =
        { slug := "robot-dogs".data
          primary_query := dashToSpace ("robot-dogs".data)
          primary_mode := .any
          fallback_query := "AI".data
          fallback_mode := some .any
          ranking_terms := genericRankingTerms } :=
  ⟨by decide, by decide, C7_generic_preset ("robot-dogs".data) (by decide) (by decide)⟩

/-- C4: on rows with pairwise distinct event ids, the result orderer
produces the sorted-by-(score desc, start asc, id asc) ordering, and any
permutation of the input sorts to the identical output. -/
theorem C4_sort_deterministic (l l2 : List Row)
    (hids : l.Pairwise (fun a b => a.event.event_id ≠ b.event.event_id))
    (hperm : l.Perm l2) :
    (sortRows l).Sorted (fun a b =>
      b.meta.score < a.meta.score ∨
        (b.meta.score = a.meta.score ∧
          (a.event.start_time < b.event.start_time ∨
            (a.event.start_time = b.event.start_time ∧
              a.event.event_id ≤ b.event.event_id)))) ∧
    sortRows l2 = sortRows l := by
  have hs1 : (sortRows l).Sorted rowLE := List.sorted_insertionSort rowLE l
  have hs2 : (sortRows l2).Sorted rowLE := List.sorted_insertionSort rowLE l2
  have hp1 : (sortRows l).Perm l := List.perm_insertionSort rowLE l
  have hp2 : (sortRows l2).Perm l2 := List.perm_insertionSort rowLE l2
  constructor
  · exact hs1.imp (fun h => (rowLE_char _ _).mp h)
  · have hperm2 : (sortRows l2).Perm (sortRows l) :=
      hp2.trans (hperm.symm.trans hp1.symm)
    have hanti : ∀ a ∈ sortRows l2, ∀ b ∈ sortRows l2, rowLE a b → rowLE b a → a = b := by
      intro a ha b hb hab hba
      by_contra hne
      have ha2 : a ∈ l := hperm.mem_iff.mpr (hp2.subset ha)
      have hb2 : b ∈ l := hperm.mem_iff.mpr (hp2.subset hb)
      exact List.Pairwise.forall (fun _ _ hxy => Ne.symm hxy) hids ha2 hb2 hne
        (rowLE_antisymm_id hab hba)
    exact sorted_perm_unique rowLE (sortRows l2) (sortRows l) hperm2 hs2 hs1 hanti

/-- Witness for C4 at three concrete rows and a shuffled copy. -/
theorem C4_sort_deterministic_witness :
    ([W1, W2, W3].Pairwise (fun a b => a.event.event_id ≠ b.event.event_id)) ∧
      ([W1, W2, W3].Perm [W3, W1, W2]) ∧
      ((sortRows [W1, W2, W3]).Sorted (fun a b =>
        b.meta.score < a.meta.score ∨
          (b.meta.score = a.meta.score ∧
            (a.event.start_time < b.event.start_time ∨
              (a.event.start_time = b.event.start_time ∧
                a.event.event_id ≤ b.event.event_id)))) ∧
        sortRows [W3, W1, W2] = sortRows [W1, W2, W3]) :=
  ⟨by decide, by decide,
    C4_sort_deterministic [W1, W2, W3] [W3, W1, W2] (by decide) (by decide)⟩

/-- C5: when the primary query matches nothing in a date bucket and a
fallback query is configured, the bucket is re-evaluated with the
fallback, the emitted day records the fallback query/mode and the
fallback's match count, the day is still emitted (it is in the days list
for its date), and a zero-match fallback still yields an emitted day with
empty results. -/
theorem C5_fallback_rerun (preset : Preset) (perDay : Nat) (events : List Event)
    (d : Str) (bucket : List Event)
    (hbucket : bucket = events.filter (fun e => decide (e.date = d)))
    (hd : d ∈ datesOf events)
    (hzero : (matchRows bucket preset.primary_query preset.primary_mode).length = 0)
    (hfb : preset.fallback_query ≠ []) :
    shortlistDay preset perDay bucket d ∈ shortlistDays preset perDay events ∧
      (shortlistDay preset perDay bucket d).query_used = preset.fallback_query ∧
      (shortlistDay preset perDay bucket d).q_mode_used = preset.fallback_mode.getD .any ∧
      (shortlistDay preset perDay bucket d).total_candidates =
        (matchRows bucket preset.fallback_query (preset.fallback_mode.getD .any)).length ∧
      ((matchRows bucket preset.fallback_query (preset.fallback_mode.getD .any)).length = 0 →
        (shortlistDay preset perDay bucket d).results = []) := by
  have hsel : shortlistSelection preset bucket =
      (preset.fallback_query, preset.fallback_mode.getD .any,
        matchRows bucket preset.fallback_query (preset.fallback_mode.getD .any)) := by
    unfold shortlistSelection
    rw [if_pos ⟨hzero, hfb⟩]
  refine ⟨?_, ?_, ?_, ?_, ?_⟩
  · rw [hbucket]
    simp only [shortlistDays]
    exact List.mem_map.mpr ⟨d, hd, rfl⟩
  · simp [shortlistDay, hsel]
  · simp [shortlistDay, hsel]
  · simp [shortlistDay, hsel, sortRanked, List.length_insertionSort, rankRows]
  · intro h0
    have hnil : matchRows bucket preset.fallback_query (preset.fallback_mode.getD .any) = [] :=
      List.length_eq_zero.mp h0
    simp [shortlistDay, hsel, hnil, rankRows, sortRanked, List.insertionSort]

/-- Witness for C5: topic `zzz` finds nothing on 2026-03-15, and the
fallback query `AI` finds all three events. -/
theorem C5_fallback_rerun_witness :
    ([F1, F2, F3] = ([F1, F2, F3].filter (fun e => decide (e.date = ("2026-03-15".data))))) ∧
      (("2026-03-15".data) ∈ datesOf [F1, F2, F3]) ∧
      ((matchRows [F1, F2, F3] (shortlistPreset ("zzz".data)).primary_query
        (shortlistPreset ("zzz".data)).primary_mode).length = 0) ∧
      ((shortlistPreset ("zzz".data)).fallback_query ≠ []) ∧
      (shortlistDay (shortlistPreset ("zzz".data)) 5 [F1, F2, F3] ("2026-03-15".data) ∈
        shortlistDays (shortlistPreset ("zzz".data)) 5 [F1, F2, F3] ∧
      (shortlistDay (shortlistPreset ("zzz".data)) 5 [F1, F2, F3]
        ("2026-03-15".data)).query_used = (shortlistPreset ("zzz".data)).fallback_query ∧
      (shortlistDay (shortlistPreset ("zzz".data)) 5 [F1, F2, F3]
        ("2026-03-15".data)).q_mode_used =
          (shortlistPreset ("zzz".data)).fallback_mode.getD .any ∧
      (shortlistDay (shortlistPreset ("zzz".data)) 5 [F1, F2, F3]
        ("2026-03-15".data)).total_candidates =
        (matchRows [F1, F2, F3] (shortlistPreset ("zzz".data)).fallback_query
          ((shortlistPreset ("zzz".data)).fallback_mode.getD .any)).length ∧
      ((matchRows [F1, F2, F3] (shortlistPreset ("zzz".data)).fallback_query
          ((shortlistPreset ("zzz".data)).fallback_mode.getD .any)).length = 0 →
        (shortlistDay (shortlistPreset ("zzz".data)) 5 [F1, F2, F3]
          ("2026-03-15".data)).results = [])) :=
  ⟨by decide, by decide, by decide, by decide,
    C5_fallback_rerun (shortlistPreset ("zzz".data)) 5 [F1, F2, F3] ("2026-03-15".data)
      [F1, F2, F3] (by decide) (by decide) (by decide) (by decide)⟩

/-- C6: each emitted day's results are the projection of the first
`perDay` elements of the ranked matching rows under a sort that is a
permutation of those rows, sorted by rank score descending with ties
broken by the result orderer; `total_candidates` is the pre-truncation
match count.  Concretely, with `perDay = 2` and five matching events of
pairwise distinct rank scores, exactly the two highest-ranked events are
returned. -/
theorem C6_bucket_truncation :
    (∀ (preset : Preset) (perDay : Nat) (dayEvents : List Event) (d : Str),
      (shortlistDay preset perDay dayEvents d).total_candidates =
        ((shortlistSelection preset dayEvents).2.2).length ∧
      (shortlistDay preset perDay dayEvents d).results =
        ((sortRanked (rankRows preset ((shortlistSelection preset dayEvents).2.2))).take
          perDay).map toItem ∧
      (sortRanked (rankRows preset ((shortlistSelection preset dayEvents).2.2))).Perm
        (rankRows preset ((shortlistSelection preset dayEvents).2.2)) ∧
      (sortRanked (rankRows preset ((shortlistSelection preset dayEvents).2.2))).Sorted
        (fun a b => b.rank_score < a.rank_score ∨
          (b.rank_score = a.rank_score ∧ rowLE a.row b.row))) ∧
    ((shortlistDay (shortlistPreset ("ai".data)) 2 [S1, S2, S3, S4, S5]
        ("2026-03-14".data)).results.map (fun i => i.event_id) =
      [("S5".data), ("S4".data)] ∧
      (shortlistDay (shortlistPreset ("ai".data)) 2 [S1, S2, S3, S4, S5]
        ("2026-03-14".data)).total_candidates = 5 ∧
      (shortlistDay (shortlistPreset ("ai".data)) 2 [S1, S2, S3, S4, S5]
        ("2026-03-14".data)).count = 2) := by
  constructor
  · intro preset perDay dayEvents d
    refine ⟨?_, ?_, ?_, ?_⟩
    · simp [shortlistDay, sortRanked, List.length_insertionSort, rankRows]
    · simp [shortlistDay]
    · exact List.perm_insertionSort rankLE _
    · exact (List.sorted_insertionSort rankLE _).imp (fun h => (rankLE_char _ _).mp h)
  · exact ⟨by decide, by decide, by decide⟩

end SXSW
